import Mathlib

/-!
Shallow embedding of the vote ingestion core of `src/datavotes.js`.

The core consists of five functions:
* `initializeDatabase` — creates the `votes` table with bounded retry (5
  attempts, 5000 ms between consecutive attempts);
* `getStoredVotes` — `SELECT nickname, votes FROM votes`, degrading to `[]`
  on a read error;
* `saveVotesToDatabase` — per-row
  `INSERT INTO votes (nickname, votes) VALUES (?, ?)
   ON DUPLICATE KEY UPDATE votes = votes + VALUES(votes)`;
* `fetchVotesFromApi` — fetches one source URL, classifies failures
  (network error, non-2xx status, `voters` not an array), reads the stored
  nicknames, filters the payload against them, and saves the novel records;
* `pollVotes` — iterates `fetchVotesFromApi` over the configured URLs in
  order, concatenating the per-source novel sets.

The database table is modelled as a `List VoteEntry` (the `nickname UNIQUE`
column means at most one row per nickname; `upsertOne` updates the first
matching row or appends). The outcome of one HTTP fetch is modelled by
`FetchResult`: the environment decides which case occurs, the embedding
captures what the code does in each case. Database calls issued during a
cycle are recorded in an `ops` trace so that call counts can be stated.
-/

namespace DataVotes

/-- A record supplied by a source: one element of the JSON `voters` array. -/
structure VoterRecord where
  nickname : String
  votes : Int
  deriving Repr, DecidableEq

/-- A persistent row of the `votes` table, restricted to the columns the
core reads and writes (`nickname`, `votes`). -/
structure VoteEntry where
  nickname : String
  votes : Int
  deriving Repr, DecidableEq

/-- Outcome of one HTTP fetch of a source URL, as classified by
`fetchVotesFromApi`: the request did not complete (`networkFailure`, the
`catch` branch), a non-2xx response (`statusFailure`, the `!response.ok`
branch), a parsed body whose `voters` field is not an array
(`shapeFailure`, the `Array.isArray` test failing), or a successful parse
of the `voters` array. -/
inductive FetchResult where
  | networkFailure
  | statusFailure
  | shapeFailure
  | success (voters : List VoterRecord)
  deriving Repr, DecidableEq

/-- Whether a fetch outcome is one of the three failure kinds. -/
def FetchResult.isFailure : FetchResult → Bool
  | .success _ => false
  | _ => true

/-- The voter list carried by a fetch outcome (empty for failures). -/
def FetchResult.payload : FetchResult → List VoterRecord
  | .success voters => voters
  | _ => []

/-- A database call issued while processing sources: a
`SELECT nickname, votes FROM votes` snapshot read, or one
`saveVotesToDatabase` batch of row upserts. -/
inductive StoreOp where
  | readSnapshot
  | upsertBatch (rows : List VoterRecord)
  deriving Repr, DecidableEq

/-- One row upsert:
`INSERT INTO votes (nickname, votes) VALUES (?, ?)
 ON DUPLICATE KEY UPDATE votes = votes + VALUES(votes)`.
Since `nickname` is `UNIQUE`, at most one row can match: the first (only)
matching row is updated by accumulation, otherwise a new row is inserted. -/
def upsertOne : List VoteEntry → VoterRecord → List VoteEntry
  | [], v => [⟨v.nickname, v.votes⟩]
  | e :: rest, v =>
      if e.nickname == v.nickname then ⟨e.nickname, e.votes + v.votes⟩ :: rest
      else e :: upsertOne rest v

/-- `saveVotesToDatabase(newVotes)`: issues one `upsertOne` per element of
`newVotes`. The rows are independent unless nicknames repeat, and repeated
nicknames accumulate, so applying them in list order models the
`Promise.all` of per-row executes. -/
def saveVotesToDatabase (store : List VoteEntry) (newVotes : List VoterRecord) :
    List VoteEntry :=
  newVotes.foldl upsertOne store

/-- `saveVotesToDatabase(newVotes)` when individual row upserts may fail:
the rows are executed as independent promises, so a failing row is simply
not applied while every other row's write still happens, and the single
`try { await Promise.all(...) } catch` around the batch logs exactly one
error message when at least one row fails (the first rejection), however
many rows failed. `rowFails i` says whether the row at index `i` throws.
The result is the table afterwards and the number of error log entries;
the function itself returns normally either way. -/
def saveVotesWithFailures (store : List VoteEntry) (rows : List VoterRecord)
    (rowFails : Nat → Bool) : List VoteEntry × Nat :=
  (rows.enum.foldl (fun st p => if rowFails p.1 then st else upsertOne st p.2) store,
   if rows.enum.any (fun p => rowFails p.1) then 1 else 0)

/-- `getStoredVotes()`: returns the stored rows, or `[]` when the read
fails (the `catch` branch returns `[]`). `readFails` says whether the
`SELECT` throws. -/
def getStoredVotes (store : List VoteEntry) (readFails : Bool) : List VoteEntry :=
  if readFails then [] else store

/-- Result of processing one source (or one whole cycle): the novel
records returned, the table contents afterwards, and the trace of database
calls issued. -/
structure FetchOutcome where
  newVotes : List VoterRecord
  store : List VoteEntry
  ops : List StoreOp
  deriving Repr, DecidableEq

/-- `fetchVotesFromApi(apiUrl)`: each failure kind logs and returns `[]`
without touching the database; on success the function reads the stored
nicknames, keeps the payload records whose nickname is not among them, and
saves that novel set when it is non-empty. -/
def fetchVotesFromApi (store : List VoteEntry) (readFails : Bool) :
    FetchResult → FetchOutcome
  | .networkFailure => ⟨[], store, []⟩
  | .statusFailure => ⟨[], store, []⟩
  | .shapeFailure => ⟨[], store, []⟩
  | .success voters =>
      let storedVotes := getStoredVotes store readFails
      let storedNicknames := storedVotes.map (·.nickname)
      let newVotes := voters.filter (fun v => !(storedNicknames.contains v.nickname))
      if newVotes.isEmpty then
        ⟨newVotes, store, [.readSnapshot]⟩
      else
        ⟨newVotes, saveVotesToDatabase store newVotes, [.readSnapshot, .upsertBatch newVotes]⟩

/-- `pollVotes(apiUrls)`: processes the sources in order, pushing each
source's novel records onto the accumulated list; each source's
`fetchVotesFromApi` sees the table as left by the previous sources. -/
def pollVotes (store : List VoteEntry) (readFails : Bool) :
    List FetchResult → FetchOutcome
  | [] => ⟨[], store, []⟩
  | src :: rest =>
      let r := fetchVotesFromApi store readFails src
      let r2 := pollVotes r.store readFails rest
      ⟨r.newVotes ++ r2.newVotes, r2.store, r.ops ++ r2.ops⟩

/-- Result of `initializeDatabase`: how many `CREATE TABLE` attempts were
made, the list of inter-attempt delays (milliseconds), and whether an
attempt succeeded. The function always returns this value: no failure is
re-thrown, so reaching the retry ceiling never terminates the process. -/
structure InitOutcome where
  attempts : Nat
  delays : List Nat
  succeeded : Bool
  deriving Repr, DecidableEq

/-- The `while (retries < maxRetries)` loop of `initializeDatabase`.
`outcome k` says whether the attempt made when `retries = k` succeeds;
`remaining = maxRetries - retries`. On failure the counter increments; if
the ceiling is reached the loop exits (after the terminal log), otherwise
the code sleeps 5000 ms and retries. -/
def initLoop (outcome : Nat → Bool) : Nat → Nat → InitOutcome
  | _, 0 => ⟨0, [], false⟩
  | attemptIdx, remaining + 1 =>
      if outcome attemptIdx then ⟨1, [], true⟩
      else if remaining = 0 then ⟨1, [], false⟩
      else
        let r := initLoop outcome (attemptIdx + 1) remaining
        ⟨r.attempts + 1, 5000 :: r.delays, r.succeeded⟩

/-- `maxRetries = 5` in `initializeDatabase`. -/
def maxRetries : Nat := 5

/-- `initializeDatabase()`: starts with `retries = 0` and the ceiling of
`maxRetries` attempts. -/
def initializeDatabase (outcome : Nat → Bool) : InitOutcome :=
  initLoop outcome 0 maxRetries

/-- The stored vote count of a nickname, when a row for it exists. -/
def storedCount (store : List VoteEntry) (n : String) : Option Int :=
  (store.find? (fun e => e.nickname == n)).map (·.votes)

/-- The stored vote count of a nickname, defaulting to 0 when absent
(matching the column default `votes INT NOT NULL DEFAULT 0`). -/
def storedCountD (store : List VoteEntry) (n : String) : Int :=
  match store.find? (fun e => e.nickname == n) with
  | some e => e.votes
  | none => 0

/-- Total votes carried by the records of a list that bear a nickname. -/
def sumVotes : List VoterRecord → String → Int
  | [], _ => 0
  | v :: rest, n => (if v.nickname == n then v.votes else 0) + sumVotes rest n

/-- Number of snapshot reads in a trace of database calls. -/
def opsReadCount (ops : List StoreOp) : Nat :=
  (ops.filter (fun o => match o with | .readSnapshot => true | _ => false)).length

/-- Number of `upsertBatch` calls in a trace of database calls. -/
def opsUpsertCount (ops : List StoreOp) : Nat :=
  (ops.filter (fun o => match o with | .upsertBatch _ => true | _ => false)).length

/-- All rows upserted over a trace, in call order. -/
def opsUpsertedRows : List StoreOp → List VoterRecord
  | [] => []
  | .readSnapshot :: rest => opsUpsertedRows rest
  | .upsertBatch rows :: rest => rows ++ opsUpsertedRows rest

/-- Number of sources whose fetch succeeded. -/
def countSuccesses (srcs : List FetchResult) : Nat :=
  (srcs.filter (fun s => !s.isFailure)).length

/-! ### Lemmas about single-row upserts and stored counts -/

theorem storedCountD_upsertOne (store : List VoteEntry) (v : VoterRecord) (n : String) :
    storedCountD (upsertOne store v) n
      = storedCountD store n + (if v.nickname = n then v.votes else 0) := by
  induction store with
  | nil =>
      by_cases h : v.nickname = n
      · have hb : (v.nickname == n) = true := by simp [h]
        simp [upsertOne, storedCountD, List.find?, hb, h]
      · have hb : (v.nickname == n) = false := by simp [h]
        simp [upsertOne, storedCountD, List.find?, hb, h]
  | cons e rest ih =>
      by_cases he : e.nickname = v.nickname
      · have hbe : (e.nickname == v.nickname) = true := by simp [he]
        by_cases hn : e.nickname = n
        · have hv : v.nickname = n := he ▸ hn
          have hb1 : (e.nickname == n) = true := by simp [hn]
          have hb2 : (v.nickname == n) = true := by simp [hv]
          simp [upsertOne, storedCountD, List.find?, hbe, hb1, hb2, hv]
        · have hv : ¬ v.nickname = n := fun h => hn (he ▸ h)
          have hb1 : (e.nickname == n) = false := by simp [hn]
          have hb2 : (v.nickname == n) = false := by simp [hv]
          simp [upsertOne, storedCountD, List.find?, hbe, hb1, hb2, hv]
      · have hbe : (e.nickname == v.nickname) = false := by simp [he]
        by_cases hn : e.nickname = n
        · have hv : ¬ v.nickname = n := fun h => he (h.trans hn.symm).symm
          have hb1 : (e.nickname == n) = true := by simp [hn]
          have hb2 : (v.nickname == n) = false := by simp [hv]
          simp [upsertOne, storedCountD, List.find?, hbe, hb1, hb2, hv]
        · have hb1 : (e.nickname == n) = false := by simp [hn]
          simpa [upsertOne, storedCountD, List.find?, hbe, hb1] using ih

theorem storedCount_upsertOne_self (store : List VoteEntry) (v : VoterRecord) :
    storedCount (upsertOne store v) v.nickname
      = some (storedCountD store v.nickname + v.votes) := by
  induction store with
  | nil => simp [upsertOne, storedCount, storedCountD, List.find?]
  | cons e rest ih =>
      by_cases he : e.nickname = v.nickname
      · have hbe : (e.nickname == v.nickname) = true := by simp [he]
        simp [upsertOne, storedCount, storedCountD, List.find?, hbe, he]
      · have hbe : (e.nickname == v.nickname) = false := by simp [he]
        simpa [upsertOne, storedCount, storedCountD, List.find?, hbe] using ih

theorem storedCountD_of_none (store : List VoteEntry) (n : String)
    (h : storedCount store n = none) : storedCountD store n = 0 := by
  unfold storedCount at h
  unfold storedCountD
  cases hf : store.find? (fun e => e.nickname == n) with
  | none => rfl
  | some e => rw [hf] at h; simp at h

theorem saveVotesToDatabase_cons (store : List VoteEntry) (v : VoterRecord)
    (rest : List VoterRecord) :
    saveVotesToDatabase store (v :: rest) = saveVotesToDatabase (upsertOne store v) rest := by
  simp [saveVotesToDatabase]

theorem storedCountD_save (rows : List VoterRecord) :
    ∀ (store : List VoteEntry) (n : String),
      storedCountD (saveVotesToDatabase store rows) n = storedCountD store n + sumVotes rows n := by
  induction rows with
  | nil => intro store n; simp [saveVotesToDatabase, sumVotes]
  | cons v rest ih =>
      intro store n
      rw [saveVotesToDatabase_cons, ih, storedCountD_upsertOne]
      by_cases h : v.nickname = n
      · simp only [sumVotes, h]
        simp
        ring
      · simp [sumVotes, h]

/-- Claim C3: upserting a fresh nickname with count `a` and then upserting
it again with count `b` leaves the stored `voteCount` equal to `a + b` —
the `ON DUPLICATE KEY UPDATE votes = votes + VALUES(votes)` clause
accumulates instead of overwriting. -/
theorem claim3_accumulation (store : List VoteEntry) (n : String) (a b : Int)
    (h : storedCount store n = none) :
    storedCount
      (saveVotesToDatabase (saveVotesToDatabase store [⟨n, a⟩]) [⟨n, b⟩]) n
      = some (a + b) := by
  have h0 : storedCountD store n = 0 := storedCountD_of_none store n h
  have h1 : saveVotesToDatabase store [(⟨n, a⟩ : VoterRecord)] = upsertOne store ⟨n, a⟩ := by
    simp [saveVotesToDatabase]
  have h2 : saveVotesToDatabase (upsertOne store ⟨n, a⟩) [(⟨n, b⟩ : VoterRecord)]
      = upsertOne (upsertOne store ⟨n, a⟩) ⟨n, b⟩ := by
    simp [saveVotesToDatabase]
  rw [h1, h2]
  have := storedCount_upsertOne_self (upsertOne store ⟨n, a⟩) ⟨n, b⟩
  rw [this, storedCountD_upsertOne, h0]
  simp

/-- Witness for C3 at a concrete input: the nickname `n` is absent from
the empty store, and two upserts with counts 2 then 3 store 5 (not
`max 2 3 = 3` and not `3`). -/
theorem claim3_accumulation_witness :
    storedCount ([] : List VoteEntry) "n" = none ∧
      storedCount
        (saveVotesToDatabase (saveVotesToDatabase [] [⟨"n", 2⟩]) [⟨"n", 3⟩]) "n"
        = some 5 ∧ (5 : Int) ≠ 3 :=
  ⟨rfl, claim3_accumulation [] "n" 2 3 rfl, by decide⟩

/-- Claim C4: when schema creation fails on every attempt,
`initializeDatabase` makes exactly 5 attempts, sleeps a fixed 5000 ms
between consecutive attempts (4 delays for 5 attempts), and returns an
outcome to the caller — the loop exits normally, no error is re-thrown
and the process keeps running. -/
theorem claim4_retry_bound (outcome : Nat → Bool) (h : ∀ k, outcome k = false) :
    initializeDatabase outcome
      = ⟨5, [5000, 5000, 5000, 5000], false⟩ := by
  simp [initializeDatabase, maxRetries, initLoop, h]

/-- Witness for C4: the always-failing schema-creation outcome. -/
theorem claim4_retry_bound_witness :
    initializeDatabase (fun _ => false)
      = ⟨5, [5000, 5000, 5000, 5000], false⟩ :=
  claim4_retry_bound (fun _ => false) (fun _ => rfl)

/-! ### Lemmas about nickname preservation and `fetchVotesFromApi` -/

theorem mem_nicknames_upsertOne (store : List VoteEntry) (v : VoterRecord) (n : String)
    (h : n ∈ store.map (·.nickname)) : n ∈ (upsertOne store v).map (·.nickname) := by
  induction store with
  | nil => simp at h
  | cons e rest ih =>
      by_cases he : e.nickname = v.nickname
      · have hbe : (e.nickname == v.nickname) = true := by simp [he]
        simpa [upsertOne, hbe] using h
      · have hbe : (e.nickname == v.nickname) = false := by simp [he]
        simp [upsertOne, hbe] at h ⊢
        rcases h with h | h
        · exact Or.inl h
        · exact Or.inr (by simpa using ih (by simpa using h))

theorem mem_nicknames_save (rows : List VoterRecord) :
    ∀ (store : List VoteEntry) (n : String), n ∈ store.map (·.nickname) →
      n ∈ (saveVotesToDatabase store rows).map (·.nickname) := by
  induction rows with
  | nil => intro store n h; simpa [saveVotesToDatabase] using h
  | cons v rest ih =>
      intro store n h
      rw [saveVotesToDatabase_cons]
      exact ih _ n (mem_nicknames_upsertOne store v n h)

theorem fetch_success_newVotes (store : List VoteEntry) (rf : Bool)
    (voters : List VoterRecord) :
    (fetchVotesFromApi store rf (.success voters)).newVotes
      = voters.filter
          (fun v => !(((getStoredVotes store rf).map (·.nickname)).contains v.nickname)) := by
  dsimp only [fetchVotesFromApi]
  split <;> rfl

theorem fetch_success_store (store : List VoteEntry) (rf : Bool)
    (voters : List VoterRecord) :
    (fetchVotesFromApi store rf (.success voters)).store
      = saveVotesToDatabase store (fetchVotesFromApi store rf (.success voters)).newVotes := by
  dsimp only [fetchVotesFromApi]
  split
  · next h =>
      simp only [List.isEmpty_iff] at h
      rw [h]
      rfl
  · rfl

theorem fetch_failure (store : List VoteEntry) (rf : Bool) (src : FetchResult)
    (h : src.isFailure = true) : fetchVotesFromApi store rf src = ⟨[], store, []⟩ := by
  cases src <;> simp_all [fetchVotesFromApi, FetchResult.isFailure]

/-- Claim C7: each of the three failure kinds of the source client — the
request could not complete, a non-2xx response, and a parsed body whose
`voters` field is not an array — degrades to an empty result for that
source, leaving the table untouched and issuing no database call; the
embedding is a total function, so no error crosses the
`fetchVotesFromApi` boundary. -/
theorem claim7_fetch_failures_degrade (store : List VoteEntry) (rf : Bool) :
    fetchVotesFromApi store rf .networkFailure = ⟨[], store, []⟩ ∧
      fetchVotesFromApi store rf .statusFailure = ⟨[], store, []⟩ ∧
      fetchVotesFromApi store rf .shapeFailure = ⟨[], store, []⟩ :=
  ⟨rfl, rfl, rfl⟩

/-- Claim C10: when the `SELECT` of stored votes fails, the read degrades
to an empty snapshot, so every fetched record is classified as novel: the
whole payload is returned and upserted, accumulating into the existing
stored counts even for nicknames already present before the cycle. -/
theorem claim10_read_failure_degrades (store : List VoteEntry)
    (voters : List VoterRecord) :
    (fetchVotesFromApi store true (.success voters)).newVotes = voters ∧
      (fetchVotesFromApi store true (.success voters)).store
        = saveVotesToDatabase store voters ∧
      ∀ n, storedCountD (fetchVotesFromApi store true (.success voters)).store n
          = storedCountD store n + sumVotes voters n := by
  have hnv : (fetchVotesFromApi store true (.success voters)).newVotes = voters := by
    rw [fetch_success_newVotes]
    simp [getStoredVotes]
  refine ⟨hnv, ?_, ?_⟩
  · rw [fetch_success_store, hnv]
  · intro n
    rw [fetch_success_store, hnv, storedCountD_save]

/-! ### Lemmas about `pollVotes` -/

theorem pollVotes_append (rf : Bool) (l1 l2 : List FetchResult) :
    ∀ store : List VoteEntry,
      pollVotes store rf (l1 ++ l2)
        = ⟨(pollVotes store rf l1).newVotes
              ++ (pollVotes (pollVotes store rf l1).store rf l2).newVotes,
           (pollVotes (pollVotes store rf l1).store rf l2).store,
           (pollVotes store rf l1).ops
              ++ (pollVotes (pollVotes store rf l1).store rf l2).ops⟩ := by
  induction l1 with
  | nil => intro store; simp [pollVotes]
  | cons src rest ih =>
      intro store
      simp [pollVotes, ih]

/-- Claim C6: a source whose fetch fails (with any of the three failure
kinds) contributes nothing to the cycle: the cycle's returned records,
final table and database calls are exactly those of the same cycle with
the failing source removed — every other source's records are still
returned and persisted. -/
theorem claim6_source_isolation (store : List VoteEntry) (rf : Bool)
    (pre post : List FetchResult) (f : FetchResult) (h : f.isFailure = true) :
    pollVotes store rf (pre ++ f :: post) = pollVotes store rf (pre ++ post) := by
  have key : ∀ st : List VoteEntry, pollVotes st rf (f :: post) = pollVotes st rf post := by
    intro st
    have hf := fetch_failure st rf f h
    simp [pollVotes, hf]
  rw [pollVotes_append, pollVotes_append, key]

/-- Witness for C6: source A succeeds, the middle source returns a non-2xx
status, source B succeeds; the cycle equals the cycle over A and B only. -/
theorem claim6_source_isolation_witness :
    FetchResult.isFailure .statusFailure = true ∧
      pollVotes [] false ([.success [⟨"a", 1⟩]] ++ .statusFailure :: [.success [⟨"b", 2⟩]])
        = pollVotes [] false ([.success [⟨"a", 1⟩]] ++ [.success [⟨"b", 2⟩]]) :=
  ⟨rfl, claim6_source_isolation [] false _ _ _ rfl⟩

theorem fetch_newVotes_not_known (store : List VoteEntry) (src : FetchResult)
    (r : VoterRecord) (h : r ∈ (fetchVotesFromApi store false src).newVotes) :
    ¬ r.nickname ∈ store.map (·.nickname) := by
  cases src with
  | networkFailure => simp [fetchVotesFromApi] at h
  | statusFailure => simp [fetchVotesFromApi] at h
  | shapeFailure => simp [fetchVotesFromApi] at h
  | success voters =>
      rw [fetch_success_newVotes] at h
      simp [getStoredVotes, List.mem_filter] at h
      intro hmem
      simp at hmem
      obtain ⟨e, he, hen⟩ := hmem
      exact h.2 e he hen

theorem fetch_preserves_known (store : List VoteEntry) (rf : Bool) (src : FetchResult)
    (n : String) (h : n ∈ store.map (·.nickname)) :
    n ∈ (fetchVotesFromApi store rf src).store.map (·.nickname) := by
  cases src with
  | networkFailure => simpa [fetchVotesFromApi] using h
  | statusFailure => simpa [fetchVotesFromApi] using h
  | shapeFailure => simpa [fetchVotesFromApi] using h
  | success voters =>
      rw [fetch_success_store]
      exact mem_nicknames_save _ store n h

theorem poll_known_not_returned (sources : List FetchResult) :
    ∀ (store : List VoteEntry) (n : String), n ∈ store.map (·.nickname) →
      ∀ r ∈ (pollVotes store false sources).newVotes, ¬ r.nickname = n := by
  induction sources with
  | nil => intro store n _ r hr; simp [pollVotes] at hr
  | cons src rest ih =>
      intro store n hkn r hr
      simp only [pollVotes, List.mem_append] at hr
      rcases hr with hr | hr
      · intro heq
        exact fetch_newVotes_not_known store src r hr (heq ▸ hkn)
      · exact ih _ n (fetch_preserves_known store false src n hkn) r hr

/-- Claim C5: every record returned by a poll cycle (with working database
reads) bears a nickname that was absent from the stored nickname set at
the cycle's start — the returned set is the delta of this cycle. -/
theorem claim5_dedup_correct (store : List VoteEntry) (sources : List FetchResult)
    (r : VoterRecord) (h : r ∈ (pollVotes store false sources).newVotes) :
    r.nickname ∉ store.map (·.nickname) := by
  intro hmem
  exact poll_known_not_returned sources store r.nickname hmem r h rfl

/-- Witness for C5: a cycle over a store already containing `"a"` returns
the record for `"b"`, whose nickname is not stored at cycle start. -/
theorem claim5_dedup_correct_witness :
    (⟨"b", 2⟩ : VoterRecord) ∈ (pollVotes [⟨"a", 1⟩] false [.success [⟨"b", 2⟩]]).newVotes ∧
      "b" ∉ ([⟨"a", 1⟩] : List VoteEntry).map (·.nickname) :=
  ⟨by decide, claim5_dedup_correct [⟨"a", 1⟩] [.success [⟨"b", 2⟩]] ⟨"b", 2⟩ (by decide)⟩

/-! ### Lemmas about the trace of database calls -/

theorem opsReadCount_append (a b : List StoreOp) :
    opsReadCount (a ++ b) = opsReadCount a + opsReadCount b := by
  simp [opsReadCount, List.filter_append]

theorem opsUpsertCount_append (a b : List StoreOp) :
    opsUpsertCount (a ++ b) = opsUpsertCount a + opsUpsertCount b := by
  simp [opsUpsertCount, List.filter_append]

theorem opsUpsertedRows_append (a b : List StoreOp) :
    opsUpsertedRows (a ++ b) = opsUpsertedRows a ++ opsUpsertedRows b := by
  induction a with
  | nil => simp [opsUpsertedRows]
  | cons o rest ih => cases o <;> simp [opsUpsertedRows, ih]

theorem countSuccesses_cons (s : FetchResult) (l : List FetchResult) :
    countSuccesses (s :: l) = (if s.isFailure then 0 else 1) + countSuccesses l := by
  cases hs : s.isFailure <;> simp [countSuccesses, List.filter_cons, hs, Nat.add_comm]

theorem fetch_ops_reads (store : List VoteEntry) (rf : Bool) (src : FetchResult) :
    opsReadCount (fetchVotesFromApi store rf src).ops
      = (if src.isFailure then 0 else 1) := by
  cases src with
  | networkFailure => rfl
  | statusFailure => rfl
  | shapeFailure => rfl
  | success voters =>
      dsimp only [fetchVotesFromApi, FetchResult.isFailure]
      split <;> rfl

theorem fetch_ops_upsertCount (store : List VoteEntry) (rf : Bool) (src : FetchResult) :
    opsUpsertCount (fetchVotesFromApi store rf src).ops
      ≤ (if src.isFailure then 0 else 1) := by
  cases src with
  | networkFailure => exact Nat.le_refl 0
  | statusFailure => exact Nat.le_refl 0
  | shapeFailure => exact Nat.le_refl 0
  | success voters =>
      dsimp only [fetchVotesFromApi, FetchResult.isFailure]
      split
      · exact Nat.zero_le 1
      · exact Nat.le_refl 1

theorem fetch_ops_upserted (store : List VoteEntry) (rf : Bool) (src : FetchResult) :
    opsUpsertedRows (fetchVotesFromApi store rf src).ops
      = (fetchVotesFromApi store rf src).newVotes := by
  cases src with
  | networkFailure => rfl
  | statusFailure => rfl
  | shapeFailure => rfl
  | success voters =>
      dsimp only [fetchVotesFromApi]
      split
      · next h =>
          simp only [List.isEmpty_iff] at h
          rw [h]
          rfl
      · simp [opsUpsertedRows]

/-- The counterexample to claim C1: a cycle over two successful sources
with fresh nicknames issues two snapshot reads and two `upsertBatch`
calls, not one of each — the snapshot is taken and the batch saved inside
`fetchVotesFromApi`, once per source, not once per cycle in `pollVotes`. -/
theorem claim1_counterexample :
    opsReadCount (pollVotes [] false [.success [⟨"p", 3⟩], .success [⟨"q", 1⟩]]).ops = 2 ∧
      opsUpsertCount (pollVotes [] false [.success [⟨"p", 3⟩], .success [⟨"q", 1⟩]]).ops = 2 ∧
      (2 : Nat) ≠ 1 := by
  decide

/-- Claim C1 as amended: the Poller takes one `knownNicknames` snapshot
per successfully fetched source (not once per cycle) and issues at most
one `upsertBatch` per source (not a single cycle-wide call); the rows of
all `upsertBatch` calls, concatenated in call order, are exactly the
accumulated set the cycle returns. -/
theorem claim1_amended (sources : List FetchResult) :
    ∀ (store : List VoteEntry) (rf : Bool),
      opsReadCount (pollVotes store rf sources).ops = countSuccesses sources ∧
        opsUpsertedRows (pollVotes store rf sources).ops
          = (pollVotes store rf sources).newVotes ∧
        opsUpsertCount (pollVotes store rf sources).ops ≤ countSuccesses sources := by
  induction sources with
  | nil =>
      intro store rf
      exact ⟨rfl, rfl, Nat.le_refl 0⟩
  | cons src rest ih =>
      intro store rf
      obtain ⟨ih1, ih2, ih3⟩ := ih (fetchVotesFromApi store rf src).store rf
      refine ⟨?_, ?_, ?_⟩
      · simp only [pollVotes, opsReadCount_append, fetch_ops_reads, ih1,
          countSuccesses_cons]
      · simp only [pollVotes, opsUpsertedRows_append, fetch_ops_upserted, ih2]
      · simp only [pollVotes, opsUpsertCount_append, countSuccesses_cons]
        exact Nat.add_le_add (fetch_ops_upsertCount store rf src) ih3

/-- The counterexample to claim C2: with an empty store and sources `A`
returning `x:3` and `B` returning `x:2, y:1`, source `B`'s `x` record is
deduplicated away — `A`'s batch was already saved and `B`'s fetch re-reads
the store — so the cycle returns only `x:3` and `y:1`, and the stored
count for `x` is 3, not 5. -/
theorem claim2_counterexample :
    (pollVotes [] false [.success [⟨"x", 3⟩], .success [⟨"x", 2⟩, ⟨"y", 1⟩]]).newVotes
        = [⟨"x", 3⟩, ⟨"y", 1⟩] ∧
      (⟨"x", 2⟩ : VoterRecord)
          ∉ (pollVotes [] false [.success [⟨"x", 3⟩], .success [⟨"x", 2⟩, ⟨"y", 1⟩]]).newVotes ∧
      storedCount
          (pollVotes [] false [.success [⟨"x", 3⟩], .success [⟨"x", 2⟩, ⟨"y", 1⟩]]).store "x"
        = some 3 ∧
      some (3 : Int) ≠ some 5 := by
  decide

/-- Claim C2 as amended: a nickname appearing in two different sources in
one cycle is deduplicated against the store as already updated by the
earlier source, so only the first source's record survives (`x` ends at 3,
not 5); duplicates within a single source's batch are still not
deduplicated against each other and all accumulate (`z:1` and `z:2` are
both returned and `z` ends at 3). -/
theorem claim2_amended :
    (pollVotes [] false [.success [⟨"x", 3⟩], .success [⟨"x", 2⟩, ⟨"y", 1⟩]]).newVotes
        = [⟨"x", 3⟩, ⟨"y", 1⟩] ∧
      (pollVotes [] false [.success [⟨"x", 3⟩], .success [⟨"x", 2⟩, ⟨"y", 1⟩]]).store
        = [⟨"x", 3⟩, ⟨"y", 1⟩] ∧
      (pollVotes [] false [.success [⟨"z", 1⟩, ⟨"z", 2⟩]]).newVotes
        = [⟨"z", 1⟩, ⟨"z", 2⟩] ∧
      storedCount (pollVotes [] false [.success [⟨"z", 1⟩, ⟨"z", 2⟩]]).store "z"
        = some 3 := by
  decide

/-! ### Lemmas about batches with per-row failures -/

theorem foldl_skip_eq_save (ps : List (Nat × VoterRecord)) :
    ∀ (store : List VoteEntry) (f : Nat → Bool),
      ps.foldl (fun st p => if f p.1 then st else upsertOne st p.2) store
        = saveVotesToDatabase store ((ps.filter (fun p => !(f p.1))).map (·.2)) := by
  induction ps with
  | nil => intro store f; rfl
  | cons p rest ih =>
      intro store f
      by_cases h : f p.1
      · simp [List.foldl_cons, List.filter_cons, h, ih]
      · simp [List.foldl_cons, List.filter_cons, h, ih, saveVotesToDatabase_cons]

/-- The counterexample to claim C8: a batch of three rows where the rows
at indices 0 and 1 fail produces exactly one error report (the single
`catch` around `Promise.all` fires once with the first rejection), not one
per failing row — with two rows failing, per-row reporting would produce
two. The surviving row `c` is written; the failing row `a` is not. -/
theorem claim8_counterexample :
    (saveVotesWithFailures [] [⟨"a", 1⟩, ⟨"b", 2⟩, ⟨"c", 3⟩] (fun i => decide (i < 2))).2
        = 1 ∧
      (([⟨"a", 1⟩, ⟨"b", 2⟩, ⟨"c", 3⟩] : List VoterRecord).enum.filter
          (fun p => decide (p.1 < 2))).length = 2 ∧
      (1 : Nat) ≠ 2 ∧
      storedCount
          (saveVotesWithFailures [] [⟨"a", 1⟩, ⟨"b", 2⟩, ⟨"c", 3⟩]
            (fun i => decide (i < 2))).1 "c" = some 3 ∧
      storedCount
          (saveVotesWithFailures [] [⟨"a", 1⟩, ⟨"b", 2⟩, ⟨"c", 3⟩]
            (fun i => decide (i < 2))).1 "a" = none := by
  decide

/-- Claim C8 as amended: partial application is real and non-fatal — the
rows that do not fail are written exactly as an all-success batch of those
rows would be, unaffected by the failing rows, and the function returns
normally — but failure is reported as at most one batch-wide log entry
(the single `catch` around `Promise.all`), not per-row, and no per-row
outcome is returned to the caller. -/
theorem claim8_amended (store : List VoteEntry) (rows : List VoterRecord)
    (rowFails : Nat → Bool) :
    (saveVotesWithFailures store rows rowFails).2 ≤ 1 ∧
      (saveVotesWithFailures store rows rowFails).1
        = saveVotesToDatabase store
            ((rows.enum.filter (fun p => !(rowFails p.1))).map (·.2)) ∧
      ∀ n, storedCountD (saveVotesWithFailures store rows rowFails).1 n
          = storedCountD store n
              + sumVotes ((rows.enum.filter (fun p => !(rowFails p.1))).map (·.2)) n := by
  refine ⟨?_, ?_, ?_⟩
  · dsimp only [saveVotesWithFailures]
    split
    · exact Nat.le_refl 1
    · exact Nat.zero_le 1
  · exact foldl_skip_eq_save rows.enum store rowFails
  · intro n
    rw [show (saveVotesWithFailures store rows rowFails).1
          = saveVotesToDatabase store
              ((rows.enum.filter (fun p => !(rowFails p.1))).map (·.2)) from
        foldl_skip_eq_save rows.enum store rowFails,
      storedCountD_save]

/-! ### Lemmas about non-negative payloads -/

theorem upsertOne_nonneg (store : List VoteEntry) (v : VoterRecord)
    (hs : ∀ e ∈ store, 0 ≤ e.votes) (hv : 0 ≤ v.votes) :
    ∀ e ∈ upsertOne store v, 0 ≤ e.votes := by
  induction store with
  | nil =>
      intro e he
      simp [upsertOne] at he
      rw [he]
      exact hv
  | cons x rest ih =>
      intro e he
      by_cases h : x.nickname = v.nickname
      · have hb : (x.nickname == v.nickname) = true := by simp [h]
        simp [upsertOne, hb] at he
        rcases he with he | he
        · rw [he]
          exact Int.add_nonneg (hs x (by simp)) hv
        · exact hs e (by simp [he])
      · have hb : (x.nickname == v.nickname) = false := by simp [h]
        simp [upsertOne, hb] at he
        rcases he with he | he
        · exact hs e (by simp [he])
        · exact ih (fun e' he' => hs e' (by simp [he'])) e he

theorem save_nonneg (rows : List VoterRecord) :
    ∀ store : List VoteEntry, (∀ e ∈ store, 0 ≤ e.votes) →
      (∀ v ∈ rows, 0 ≤ v.votes) →
      ∀ e ∈ saveVotesToDatabase store rows, 0 ≤ e.votes := by
  induction rows with
  | nil => intro store hs _ e he; exact hs e (by simpa [saveVotesToDatabase] using he)
  | cons v rest ih =>
      intro store hs hr e he
      rw [saveVotesToDatabase_cons] at he
      exact ih (upsertOne store v)
        (upsertOne_nonneg store v hs (hr v (by simp)))
        (fun v' hv' => hr v' (by simp [hv'])) e he

theorem sumVotes_nonneg (rows : List VoterRecord) (n : String)
    (h : ∀ v ∈ rows, 0 ≤ v.votes) : 0 ≤ sumVotes rows n := by
  induction rows with
  | nil => exact Int.le_refl 0
  | cons v rest ih =>
      refine Int.add_nonneg ?_ (ih (fun v' hv' => h v' (by simp [hv'])))
      by_cases hn : v.nickname = n
      · have hb : (v.nickname == n) = true := by simp [hn]
        simpa [hb] using h v (by simp)
      · have hb : (v.nickname == n) = false := by simp [hn]
        simp [hb]

theorem fetch_newVotes_sub_payload (store : List VoteEntry) (rf : Bool)
    (src : FetchResult) (r : VoterRecord)
    (h : r ∈ (fetchVotesFromApi store rf src).newVotes) : r ∈ src.payload := by
  cases src with
  | networkFailure => simp [fetchVotesFromApi] at h
  | statusFailure => simp [fetchVotesFromApi] at h
  | shapeFailure => simp [fetchVotesFromApi] at h
  | success voters =>
      rw [fetch_success_newVotes] at h
      exact List.mem_of_mem_filter h

theorem fetch_nonneg_mono (store : List VoteEntry) (rf : Bool) (src : FetchResult)
    (hs : ∀ e ∈ store, 0 ≤ e.votes)
    (hp : ∀ v ∈ src.payload, 0 ≤ v.votes) :
    (∀ e ∈ (fetchVotesFromApi store rf src).store, 0 ≤ e.votes) ∧
      ∀ n, storedCountD store n ≤ storedCountD (fetchVotesFromApi store rf src).store n := by
  cases src with
  | networkFailure => exact ⟨hs, fun n => Int.le_refl _⟩
  | statusFailure => exact ⟨hs, fun n => Int.le_refl _⟩
  | shapeFailure => exact ⟨hs, fun n => Int.le_refl _⟩
  | success voters =>
      have hnv : ∀ v ∈ (fetchVotesFromApi store rf (.success voters)).newVotes, 0 ≤ v.votes :=
        fun v hv => hp v (fetch_newVotes_sub_payload store rf (.success voters) v hv)
      constructor
      · rw [fetch_success_store]
        exact save_nonneg _ store hs hnv
      · intro n
        rw [fetch_success_store, storedCountD_save]
        exact Int.le_add_of_nonneg_right (sumVotes_nonneg _ n hnv)

/-- The counterexample to claim C9: the code accepts negative `votes`
values from a source — a fresh nickname fetched with `votes = -5` is
stored with count `-5 < 0`, and when the dedup snapshot read fails, an
already-stored nickname at 3 upserted with `-2` drops to 1 — so stored
counts are neither always non-negative nor non-decreasing for arbitrary
payloads. -/
theorem claim9_counterexample :
    storedCount (pollVotes [] false [.success [⟨"w", -5⟩]]).store "w" = some (-5) ∧
      ¬ (0 : Int) ≤ -5 ∧
      storedCount (pollVotes [⟨"u", 3⟩] true [.success [⟨"u", -2⟩]]).store "u" = some 1 ∧
      (1 : Int) < 3 := by
  decide

/-- Claim C9 as amended: provided every record carried by every source's
payload has a non-negative `votes` value, a poll cycle preserves
non-negativity of all stored counts (when the store starts non-negative)
and never lowers any nickname's stored count; the restriction to
non-negative payloads is forced, since a negative payload value violates
both parts. -/
theorem claim9_amended (sources : List FetchResult) :
    ∀ (store : List VoteEntry) (rf : Bool),
      (∀ e ∈ store, 0 ≤ e.votes) →
      (∀ src ∈ sources, ∀ v ∈ FetchResult.payload src, 0 ≤ v.votes) →
      (∀ e ∈ (pollVotes store rf sources).store, 0 ≤ e.votes) ∧
        ∀ n, storedCountD store n ≤ storedCountD (pollVotes store rf sources).store n := by
  induction sources with
  | nil => intro store rf hs _; exact ⟨hs, fun n => Int.le_refl _⟩
  | cons src rest ih =>
      intro store rf hs hp
      have hsrc : ∀ v ∈ FetchResult.payload src, 0 ≤ v.votes :=
        fun v hv => hp src (by simp) v hv
      obtain ⟨h1, h2⟩ := fetch_nonneg_mono store rf src hs hsrc
      obtain ⟨ih1, ih2⟩ := ih (fetchVotesFromApi store rf src).store rf h1
        (fun s hsm v hv => hp s (by simp [hsm]) v hv)
      constructor
      · intro e he
        exact ih1 e he
      · intro n
        exact Int.le_trans (h2 n) (ih2 n)

/-- Witness for C9 as amended: a store holding `a = 1` polled against a
source returning non-negative counts for `a` and `b`. -/
theorem claim9_amended_witness :
    (∀ e ∈ ([⟨"a", 1⟩] : List VoteEntry), 0 ≤ e.votes) ∧
      (∀ src ∈ ([.success [⟨"a", 2⟩, ⟨"b", 4⟩]] : List FetchResult),
        ∀ v ∈ FetchResult.payload src, 0 ≤ v.votes) ∧
      ((∀ e ∈ (pollVotes [⟨"a", 1⟩] false [.success [⟨"a", 2⟩, ⟨"b", 4⟩]]).store,
          0 ≤ e.votes) ∧
        ∀ n, storedCountD [⟨"a", 1⟩] n
            ≤ storedCountD (pollVotes [⟨"a", 1⟩] false [.success [⟨"a", 2⟩, ⟨"b", 4⟩]]).store n) :=
  ⟨by decide, by decide,
    claim9_amended [.success [⟨"a", 2⟩, ⟨"b", 4⟩]] [⟨"a", 1⟩] false
      (by decide) (by decide)⟩

end DataVotes
